import Mathlib

/-!
Shallow embedding of `src/dht.go` (torsniff DHT crawler).

Byte strings (Go `string` / `[]byte`) are modelled as `List Nat`, with each
element standing for one byte.  Bencoded values decoded by the external
`bencode` library are modelled by the inductive `BVal`; a decoded datagram is
a dictionary `List (String × BVal)` (the library returns
`map[string]interface{}`).  Side effects of the handlers (UDP sends, pushes
to the discovery channel `chNode`, the announcement-notifier signal) are
returned as an explicit list of `Effect`s.  A handler result of `none`
models a Go runtime panic (out-of-range slice).
-/

abbrev ByteStr := List Nat

/-- Bytes of a Lean string literal, used for protocol constants like "q",
"get_peers". -/
def strBytes (s : String) : ByteStr := s.toList.map Char.toNat

/-- A decoded bencode value, as produced by `bencode.Decode`:
Go `string`, `int64`, `[]interface{}` or `map[string]interface{}`. -/
inductive BVal where
  | bstr (s : ByteStr)
  | bint (n : Int)
  | blist (l : List BVal)
  | bdict (d : List (String × BVal))

/-- Go map lookup `dict[k]`: `none` models a missing key. -/
def lookupKey (d : List (String × BVal)) (k : String) : Option BVal :=
  match d with
  | [] => none
  | (k', v) :: rest => if k' = k then some v else lookupKey rest k

/-- Go checked type assertion `v.(string)`: `ok = false` when the key is
missing or the value has another type. -/
def asStr : Option BVal → Option ByteStr
  | some (BVal.bstr s) => some s
  | _ => none

/-- Go checked type assertion `v.(int64)`. -/
def asInt : Option BVal → Option Int
  | some (BVal.bint n) => some n
  | _ => none

/-- Go checked type assertion `v.(map[string]interface{})`. -/
def asDict : Option BVal → Option (List (String × BVal))
  | some (BVal.bdict d) => some d
  | _ => none

/-- `type node struct { addr string; id string }` from src/dht.go. -/
structure node where
  addr : String
  id : ByteStr
deriving DecidableEq, Repr

/-- `net.UDPAddr`: the parts the program uses (IP bytes and port). -/
structure Addr where
  ip : ByteStr
  port : Nat
deriving DecidableEq, Repr

/-- `net.TCPAddr` as built in `summarize` (IP bytes and a possibly
attacker-chosen `int` port). -/
structure TCPAddr where
  ip : ByteStr
  port : Int
deriving DecidableEq, Repr

/-- `type announcement struct` from src/dht.go: raw message, source UDP
address, declared peer address, raw infohash bytes and their hex form. -/
structure announcement where
  raw : List (String × BVal)
  fromAddr : Addr
  peer : TCPAddr
  infohash : ByteStr
  infohashHex : String

/-- `net.IP.String()` for the 4-byte slices cut out of a compact node
record: dotted-decimal rendering. -/
def ipString (b : ByteStr) : String :=
  String.intercalate "." (b.map (fun x => Nat.repr (x % 256)))

/-- `binary.BigEndian.Uint16` on a 2-byte slice. -/
def binaryBigEndianUint16 (b : ByteStr) : Nat :=
  (b.getD 0 0 % 256) * 256 + b.getD 1 0 % 256

/-- One 26-byte compact record read at the front of `s`
(`id := s[i:i+20]`, `ip := s[i+20:i+24]`, `port := s[i+24:i+26]`). -/
def nodeAt (s : ByteStr) : node :=
  { id := s.take 20,
    addr := ipString ((s.drop 20).take 4) ++ ":" ++
      Nat.repr (binaryBigEndianUint16 ((s.drop 24).take 2)) }

/-- The loop of `decodeNodes` (`for i := 0; i < length; i += 26`): once the
length is known to be a multiple of 26 the loop reads exactly
`length / 26` records, peeling 26 bytes off the front each iteration. -/
def decodeNodesLoop : Nat → ByteStr → List node
  | 0, _ => []
  | fuel + 1, s => nodeAt s :: decodeNodesLoop fuel (s.drop 26)

/-- `decodeNodes` from src/dht.go: reject lengths that are not a multiple
of 26, else decode the consecutive 26-byte records. -/
def decodeNodes (s : ByteStr) : List node :=
  if s.length % 26 ≠ 0 then [] else decodeNodesLoop (s.length / 26) s

/-- The i-th record of the reference (specification) reading of a compact
node list: id is bytes [26i, 26i+20), address is the dotted-decimal
rendering of bytes [26i+20, 26i+24) joined by a colon with the big-endian
16-bit port taken from bytes [26i+24, 26i+26). -/
def nodeAtIdx (s : ByteStr) (i : Nat) : node :=
  { id := (s.drop (26 * i)).take 20,
    addr := ipString ((s.drop (26 * i + 20)).take 4) ++ ":" ++
      Nat.repr (binaryBigEndianUint16 ((s.drop (26 * i + 24)).take 2)) }

/-- Reference definition of compact-node-list decoding, following the
spec's words: a non-multiple-of-26 length gives the empty list, otherwise
exactly `len(s)/26` records, indexed as in `nodeAtIdx`. -/
def decodeNodesSpec (s : ByteStr) : List node :=
  if s.length % 26 = 0 then (List.range (s.length / 26)).map (nodeAtIdx s)
  else []

/-- `neighborID` from src/dht.go.  `copy(id[:15], target[:15])` and
`copy(id[15:], local[15:])` on the fresh 20-byte `id`; slicing a byte slice
of length below 15 with `[:15]` / `[15:]` is out of range, modelled by
`none` (panic). -/
def neighborID (target localID : ByteStr) : Option ByteStr :=
  if 15 ≤ target.length ∧ 15 ≤ localID.length then
    some (target.take 15 ++ (localID.drop 15 ++ List.replicate 5 0).take 5)
  else none

/-- `makeQuery` from src/dht.go. -/
def makeQuery (tid : ByteStr) (q : String) (a : List (String × BVal)) : BVal :=
  BVal.bdict [("t", BVal.bstr tid), ("y", BVal.bstr (strBytes "q")),
    ("q", BVal.bstr (strBytes q)), ("a", BVal.bdict a)]

/-- `makeReply` from src/dht.go. -/
def makeReply (tid : ByteStr) (r : List (String × BVal)) : BVal :=
  BVal.bdict [("t", BVal.bstr tid), ("y", BVal.bstr (strBytes "r")),
    ("r", BVal.bdict r)]

/-- Modelled from the spec: the token-bucket limiter of
`golang.org/x/time/rate` (library code, not under src/): capacity =
`burst`, refill `limit` tokens per second, `Allow` takes one token or
fails.  Time is a rational number of seconds. -/
structure RateLimiter where
  limit : Rat
  burst : Nat
  tokens : Rat
  last : Rat

/-- Modelled from the spec: `rate.Limiter.Allow()` at time `now`: advance
the bucket by the elapsed time (clipped at `burst`), then take one token
if at least one is available; a failed `Allow` consumes nothing. -/
def RateLimiter.allow (l : RateLimiter) (now : Rat) : Bool × RateLimiter :=
  let tokens := min (l.burst : Rat) (l.tokens + (now - l.last) * l.limit)
  if 1 ≤ tokens then
    (true, { l with tokens := tokens - 1, last := now })
  else
    (false, { l with tokens := tokens, last := now })

/-- `per(events, time.Second)` from src/dht.go: `events` per second. -/
def per (events : Nat) : Rat := events

/-- The `dht` struct from src/dht.go (the pure state the handlers touch).
`announcementNotifier` is the capacity-1 signal channel, modelled by
whether a wake-up is currently pending; `hash` models the external
`crypto/sha1` one-way hash used by `genToken` (stdlib, not under src/). -/
structure dht where
  announcements : List announcement
  announcementNotifier : Bool
  localID : ByteStr
  secret : ByteStr
  friendsLimiter : RateLimiter
  maxAnnouncements : Nat
  hash : ByteStr → ByteStr

/-- `newDHT` from src/dht.go: empty store, empty notifier channel,
`maxAnnouncements = maxFriendsPerSec * 10`, limiter with rate
`per(maxFriendsPerSec, time.Second)` and burst `maxFriendsPerSec`. -/
def newDHT (localID secret : ByteStr) (maxFriendsPerSec : Nat)
    (hash : ByteStr → ByteStr) (now : Rat) : dht :=
  { announcements := []
    announcementNotifier := false
    localID := localID
    secret := secret
    friendsLimiter :=
      { limit := per maxFriendsPerSec, burst := maxFriendsPerSec,
        tokens := (maxFriendsPerSec : Rat), last := now }
    maxAnnouncements := maxFriendsPerSec * 10
    hash := hash }

/-- `genToken` from src/dht.go: hash of source IP followed by the secret. -/
def genToken (g : dht) (fromAddr : Addr) : ByteStr :=
  g.hash (fromAddr.ip ++ g.secret)

/-- `validateToken` from src/dht.go. -/
def validateToken (g : dht) (token : ByteStr) (fromAddr : Addr) : Bool :=
  decide (token = genToken g fromAddr)

/-- The observable actions of a handler: a UDP send, a node pushed into the
discovery channel `chNode`, the announcement-notifier signal. -/
inductive Effect where
  | send (msg : BVal) (dest : Addr)
  | discover (n : node)
  | notify

/-- The `hextable` of encoding/hex. -/
def hexChars : List Char := "0123456789abcdef".toList

/-- `hex.EncodeToString` (lowercase hex, two digits per byte). -/
def hexEncodeToString (s : ByteStr) : String :=
  String.mk (s.foldr
    (fun b acc => hexChars.getD (b % 256 / 16) 'x' ::
      hexChars.getD (b % 16) 'x' :: acc) [])

/-- `summarize` from src/dht.go: requires `a` and a string `a.info_hash`;
peer port is the UDP source port unless `a.implied_port` is present, typed
`int64` and equal to 0 and an `int64` `a.port` is present, in which case
the explicit port is used. -/
def summarize (dict : List (String × BVal)) (fromAddr : Addr) :
    Option announcement :=
  match asDict (lookupKey dict "a") with
  | none => none
  | some a =>
    match asStr (lookupKey a "info_hash") with
    | none => none
    | some infohash =>
      let port : Int :=
        match asInt (lookupKey a "implied_port") with
        | some impliedPort =>
          if impliedPort = 0 then
            match asInt (lookupKey a "port") with
            | some p => p
            | none => (fromAddr.port : Int)
          else (fromAddr.port : Int)
        | none => (fromAddr.port : Int)
      some { raw := dict
             fromAddr := fromAddr
             peer := { ip := fromAddr.ip, port := port }
             infohash := infohash
             infohashHex := hexEncodeToString infohash }

/-- `onAnnouncePeerQuery` from src/dht.go: capacity check, `a` and string
`a.token` extraction, token validation, then `summarize`, push and a
non-blocking notifier send. -/
def onAnnouncePeerQuery (g : dht) (dict : List (String × BVal))
    (fromAddr : Addr) : dht × List Effect :=
  if g.maxAnnouncements ≤ g.announcements.length then (g, [])
  else
    match asDict (lookupKey dict "a") with
    | none => (g, [])
    | some a =>
      match asStr (lookupKey a "token") with
      | none => (g, [])
      | some token =>
        if validateToken g token fromAddr then
          match summarize dict fromAddr with
          | none => (g, [])
          | some ac =>
            if g.announcementNotifier then
              ({ g with announcements := g.announcements ++ [ac] }, [])
            else
              ({ g with
                  announcements := g.announcements ++ [ac]
                  announcementNotifier := true }, [Effect.notify])
        else (g, [])

/-- `onGetPeersQuery` from src/dht.go.  The leading `dict["t"].(string)`
is an unchecked assertion (it panics when it fails; through `onQuery` it
never does), and `neighborID` can panic on a short `a.id`; both are
modelled by `none`. -/
def onGetPeersQuery (g : dht) (dict : List (String × BVal))
    (fromAddr : Addr) : Option (dht × List Effect) :=
  match asStr (lookupKey dict "t") with
  | none => none
  | some tid =>
    match asDict (lookupKey dict "a") with
    | none => some (g, [])
    | some a =>
      match asStr (lookupKey a "id") with
      | none => some (g, [])
      | some id =>
        match neighborID id g.localID with
        | none => none
        | some nid =>
          some (g, [Effect.send (makeReply tid
            [("id", BVal.bstr nid), ("nodes", BVal.bstr []),
             ("token", BVal.bstr (genToken g fromAddr))]) fromAddr])

/-- The loop of `onReply`: call `Allow()` for each decoded node in order
and keep exactly those for which it succeeds. -/
def allowLoop (now : Rat) : RateLimiter → List node → RateLimiter × List node
  | l, [] => (l, [])
  | l, n :: rest =>
    let p := l.allow now
    let q := allowLoop now p.2 rest
    if p.1 then (q.1, n :: q.2) else (q.1, q.2)

/-- `onReply` from src/dht.go: requires a dict `r` and a string `r.nodes`;
decode the compact list and push each node that passes the limiter into
`chNode`. -/
def onReply (g : dht) (dict : List (String × BVal)) (now : Rat) :
    dht × List Effect :=
  match asDict (lookupKey dict "r") with
  | none => (g, [])
  | some r =>
    match asStr (lookupKey r "nodes") with
    | none => (g, [])
    | some nodes =>
      let q := allowLoop now g.friendsLimiter (decodeNodes nodes)
      ({ g with friendsLimiter := q.1 }, q.2.map Effect.discover)

/-- `onQuery` from src/dht.go: require a string `t` and a string `q`, then
dispatch through the `queryTypes` table (`get_peers`, `announce_peer`;
anything else is a no-op). -/
def onQuery (g : dht) (dict : List (String × BVal)) (fromAddr : Addr) :
    Option (dht × List Effect) :=
  match asStr (lookupKey dict "t") with
  | none => some (g, [])
  | some _ =>
    match asStr (lookupKey dict "q") with
    | none => some (g, [])
    | some q =>
      if q = strBytes "get_peers" then onGetPeersQuery g dict fromAddr
      else if q = strBytes "announce_peer" then
        some (onAnnouncePeerQuery g dict fromAddr)
      else some (g, [])

/-- `onMessage` from src/dht.go.  The argument is the result of
`bencode.Decode` (external library): `none` is a decode error, silently
dropped; otherwise dispatch on the string `y`. -/
def onMessage (g : dht) (decoded : Option (List (String × BVal)))
    (fromAddr : Addr) (now : Rat) : Option (dht × List Effect) :=
  match decoded with
  | none => some (g, [])
  | some dict =>
    match asStr (lookupKey dict "y") with
    | none => some (g, [])
    | some y =>
      if y = strBytes "q" then onQuery g dict fromAddr
      else if y = strBytes "r" ∨ y = strBytes "e" then
        some (onReply g dict now)
      else some (g, [])

/-- Two well-formed 26-byte compact node records back to back:
(id 20×01, 1.2.3.4:80) then (id 20×02, 5.6.7.8:81). -/
def nodesBytesTwo : ByteStr :=
  List.replicate 20 1 ++ [1, 2, 3, 4] ++ [0, 80] ++
  List.replicate 20 2 ++ [5, 6, 7, 8] ++ [0, 81]

/-- A reply message whose `r.nodes` carries `nodesBytesTwo`. -/
def replyTwoNodes : List (String × BVal) :=
  [("t", BVal.bstr (strBytes "bb")), ("y", BVal.bstr (strBytes "r")),
   ("r", BVal.bdict [("nodes", BVal.bstr nodesBytesTwo)])]

/-- A fresh engine configured with `maxFriendsPerSecond = 1` (limiter
burst 1, untouched bucket). -/
def gBurstOne : dht :=
  newDHT (List.replicate 20 9) (List.replicate 20 8) 1 (fun s => s) 0

/-- The first node decoded out of `nodesBytesTwo`. -/
def nodeOneTwoThreeFour : node :=
  { addr := "1.2.3.4:80", id := List.replicate 20 1 }

/-! ## Theorems -/

theorem drop_add26 (s : ByteStr) (a : Nat) :
    s.drop (a + 26) = (s.drop 26).drop a := by
  rw [List.drop_drop, Nat.add_comm]

theorem nodeAtIdx_zero (s : ByteStr) : nodeAtIdx s 0 = nodeAt s := by
  simp [nodeAtIdx, nodeAt]

theorem nodeAtIdx_succ (s : ByteStr) (i : Nat) :
    nodeAtIdx s (i + 1) = nodeAtIdx (s.drop 26) i := by
  have h0 : 26 * (i + 1) = 26 * i + 26 := by ring
  have h20 : 26 * (i + 1) + 20 = (26 * i + 20) + 26 := by ring
  have h24 : 26 * (i + 1) + 24 = (26 * i + 24) + 26 := by ring
  unfold nodeAtIdx
  rw [h24, h20, h0, drop_add26 s (26 * i + 24), drop_add26 s (26 * i + 20),
    drop_add26 s (26 * i)]

theorem decodeNodesLoop_eq (n : Nat) : ∀ s : ByteStr,
    decodeNodesLoop n s = (List.range n).map (nodeAtIdx s) := by
  induction n with
  | zero => intro s; rfl
  | succ n ih =>
    intro s
    rw [decodeNodesLoop, ih (s.drop 26), List.range_succ_eq_map,
      List.map_cons, List.map_map, nodeAtIdx_zero]
    congr 1
    refine List.map_congr_left ?_
    intro i _
    simp only [Function.comp_apply, Nat.succ_eq_add_one, nodeAtIdx_succ]

/-- C4: `decodeNodes` matches its reference definition on all byte-string
inputs: a length that is not a multiple of 26 gives the empty list, and
otherwise exactly `len(s)/26` records are produced, the i-th with id bytes
[26i, 26i+20), dotted-decimal address from bytes [26i+20, 26i+24) and the
big-endian port from bytes [26i+24, 26i+26). -/
theorem c4_decodeNodes_matches_spec (s : ByteStr) :
    decodeNodes s = decodeNodesSpec s := by
  unfold decodeNodes decodeNodesSpec
  by_cases h : s.length % 26 = 0
  · rw [if_neg (by omega), if_pos h]
    exact decodeNodesLoop_eq (s.length / 26) s
  · rw [if_pos h, if_neg h]

/-- C9: for all 20-byte inputs `target` and `local`, `neighborID` returns a
20-byte id whose first 15 bytes equal `target`'s first 15 bytes and whose
last 5 bytes equal `local`'s last 5 bytes. -/
theorem c9_neighborID_prefix_suffix (target localID : ByteStr)
    (ht : target.length = 20) (hl : localID.length = 20) :
    ∃ r, neighborID target localID = some r ∧ r.length = 20 ∧
      r.take 15 = target.take 15 ∧ r.drop 15 = localID.drop 15 := by
  have hd5 : (localID.drop 15).length = 5 := by
    simp only [List.length_drop, hl]
  have htake : (localID.drop 15 ++ List.replicate 5 0).take 5 = localID.drop 15 :=
    List.take_left' hd5
  have ht15 : (target.take 15).length = 15 := by
    simp only [List.length_take]; omega
  refine ⟨target.take 15 ++ localID.drop 15, ?_, ?_, ?_, ?_⟩
  · rw [neighborID, if_pos (by omega), htake]
  · simp only [List.length_append, ht15, hd5]
  · exact List.take_left' ht15
  · exact List.drop_left' ht15

/-- C9 witness at concrete 20-byte inputs. -/
theorem c9_witness :
    ∃ r, neighborID (List.replicate 20 3) (List.replicate 20 4) = some r ∧
      r.length = 20 ∧
      r.take 15 = (List.replicate 20 3).take 15 ∧
      r.drop 15 = (List.replicate 20 4).drop 15 :=
  c9_neighborID_prefix_suffix (List.replicate 20 3) (List.replicate 20 4)
    (by decide) (by decide)

/-- C6: token round-trip: for every state (hence every fixed secret and
hash) and every source address, a token the engine generated for that
address validates; and a token generated under a different secret or
address fails validation whenever the underlying hash values differ. -/
theorem c6_token_roundtrip :
    (∀ (g : dht) (fromAddr : Addr),
      validateToken g (genToken g fromAddr) fromAddr = true) ∧
    (∀ (g g' : dht) (fromAddr fromAddr' : Addr),
      genToken g' fromAddr' ≠ genToken g fromAddr →
      validateToken g (genToken g' fromAddr') fromAddr = false) := by
  constructor
  · intro g fromAddr
    simp [validateToken]
  · intro g g' fromAddr fromAddr' h
    simp [validateToken, h]

/-- C6 witness: a concrete state whose hash is the identity function, with
secrets [1] and [2]: the round trip validates and the foreign-secret token
fails. -/
theorem c6_witness :
    validateToken (newDHT (List.replicate 20 9) [1] 1 (fun s => s) 0)
      (genToken (newDHT (List.replicate 20 9) [1] 1 (fun s => s) 0) ⟨[9], 5⟩)
      ⟨[9], 5⟩ = true ∧
    validateToken (newDHT (List.replicate 20 9) [1] 1 (fun s => s) 0)
      (genToken (newDHT (List.replicate 20 9) [2] 1 (fun s => s) 0) ⟨[9], 5⟩)
      ⟨[9], 5⟩ = false :=
  ⟨c6_token_roundtrip.1 _ _,
   c6_token_roundtrip.2 _ _ _ _ (by decide)⟩

/-- C2: an announcement is stored only against a valid token: whenever no
well-typed `a.token` equal to `genToken(from)` is presented, the handler
leaves the state unchanged (announcement list included) and emits no
effect, in particular no notification. -/
theorem c2_invalid_token_no_store (g : dht) (dict : List (String × BVal))
    (fromAddr : Addr)
    (h : ∀ (a : List (String × BVal)) (tok : ByteStr),
      asDict (lookupKey dict "a") = some a →
      asStr (lookupKey a "token") = some tok →
      tok ≠ genToken g fromAddr) :
    onAnnouncePeerQuery g dict fromAddr = (g, []) := by
  by_cases hcap : g.maxAnnouncements ≤ g.announcements.length
  · simp [onAnnouncePeerQuery, hcap]
  · cases hA : asDict (lookupKey dict "a") with
    | none => simp [onAnnouncePeerQuery, hcap, hA]
    | some a =>
      cases hT : asStr (lookupKey a "token") with
      | none => simp [onAnnouncePeerQuery, hcap, hA, hT]
      | some tok =>
        have hne := h a tok hA hT
        simp [onAnnouncePeerQuery, hcap, hA, hT, validateToken, hne]

/-- C2 witness: a concrete announce_peer carrying token [5] while the
engine (identity hash, secret [1], source IP [9]) expects [9, 1]: the
state is unchanged and no effect is emitted. -/
theorem c2_witness :
    onAnnouncePeerQuery (newDHT (List.replicate 20 9) [1] 1 (fun s => s) 0)
      [("a", BVal.bdict [("info_hash", BVal.bstr (List.replicate 20 17)),
        ("token", BVal.bstr [5])])] ⟨[9], 5⟩
    = (newDHT (List.replicate 20 9) [1] 1 (fun s => s) 0, []) :=
  c2_invalid_token_no_store _ _ _ (by
    intro a tok hA hT
    have ha : [("info_hash", BVal.bstr (List.replicate 20 17)),
        ("token", BVal.bstr [5])] = a := Option.some.inj hA
    subst ha
    have ht : [5] = tok := Option.some.inj hT
    subst ht
    decide)

/-- C3: the capacity of the announcement store is `10 * maxFriendsPerSecond`
as configured by `newDHT`; an announce_peer processed at or above capacity
is a no-op (state unchanged, no effect, producer not blocked), and every
handler invocation preserves `length ≤ capacity`. -/
theorem c3_capacity_bound :
    (∀ (localID secret : ByteStr) (n : Nat) (hash : ByteStr → ByteStr)
      (now : Rat),
      (newDHT localID secret n hash now).maxAnnouncements = n * 10) ∧
    (∀ (g : dht) (dict : List (String × BVal)) (fromAddr : Addr),
      g.maxAnnouncements ≤ g.announcements.length →
      onAnnouncePeerQuery g dict fromAddr = (g, [])) ∧
    (∀ (g : dht) (dict : List (String × BVal)) (fromAddr : Addr),
      g.announcements.length ≤ g.maxAnnouncements →
      (onAnnouncePeerQuery g dict fromAddr).1.announcements.length
        ≤ g.maxAnnouncements) := by
  refine ⟨fun _ _ _ _ _ => rfl, ?_, ?_⟩
  · intro g dict fromAddr hcap
    simp [onAnnouncePeerQuery, hcap]
  · intro g dict fromAddr hle
    by_cases hcap : g.maxAnnouncements ≤ g.announcements.length
    · simpa [onAnnouncePeerQuery, hcap] using hle
    · cases hA : asDict (lookupKey dict "a") with
      | none => simpa [onAnnouncePeerQuery, hcap, hA] using hle
      | some a =>
        cases hT : asStr (lookupKey a "token") with
        | none => simpa [onAnnouncePeerQuery, hcap, hA, hT] using hle
        | some tok =>
          by_cases hv : validateToken g tok fromAddr = true
          · cases hS : summarize dict fromAddr with
            | none =>
              simpa [onAnnouncePeerQuery, hcap, hA, hT, hv, hS] using hle
            | some ac =>
              by_cases hn : g.announcementNotifier
              · simp [onAnnouncePeerQuery, hcap, hA, hT, hv, hS, hn]
                omega
              · simp [onAnnouncePeerQuery, hcap, hA, hT, hv, hS, hn]
                omega
          · simpa [onAnnouncePeerQuery, hcap, hA, hT, hv] using hle

/-- C3 witness: at capacity 0 (maxFriendsPerSecond = 0) the handler is a
no-op and the bound is preserved. -/
theorem c3_witness :
    onAnnouncePeerQuery (newDHT [3] [4] 0 (fun s => s) 0) [] ⟨[9], 5⟩
      = (newDHT [3] [4] 0 (fun s => s) 0, []) ∧
    (onAnnouncePeerQuery (newDHT [3] [4] 0 (fun s => s) 0) []
      ⟨[9], 5⟩).1.announcements.length
      ≤ (newDHT [3] [4] 0 (fun s => s) 0).maxAnnouncements :=
  ⟨c3_capacity_bound.2.1 _ _ _ (by decide),
   c3_capacity_bound.2.2 _ _ _ (by decide)⟩

/-- C10: the announce_peer handler performs no length check on
`a.info_hash`: under the capacity check and a valid token, an `a.info_hash`
byte string of any length is stored as the raw `infohash` of a freshly
appended announcement. -/
theorem c10_no_infohash_length_check (g : dht)
    (dict a : List (String × BVal)) (tok ih : ByteStr) (fromAddr : Addr)
    (hcap : g.announcements.length < g.maxAnnouncements)
    (hA : asDict (lookupKey dict "a") = some a)
    (hT : asStr (lookupKey a "token") = some tok)
    (hv : tok = genToken g fromAddr)
    (hI : asStr (lookupKey a "info_hash") = some ih) :
    ∃ ac, (onAnnouncePeerQuery g dict fromAddr).1.announcements
        = g.announcements ++ [ac] ∧ ac.infohash = ih := by
  have hcap' : ¬ g.maxAnnouncements ≤ g.announcements.length := by omega
  have hval : validateToken g tok fromAddr = true := by
    simp [validateToken, hv]
  have hsum : ∃ ac, summarize dict fromAddr = some ac ∧ ac.infohash = ih := by
    simp only [summarize, hA, hI]
    exact ⟨_, rfl, rfl⟩
  obtain ⟨ac, hac, hih⟩ := hsum
  by_cases hn : g.announcementNotifier
  · simp only [onAnnouncePeerQuery, hA, hT, hval, hac, hn, if_true, if_false]
    simp only [if_neg hcap']
    exact ⟨ac, rfl, hih⟩
  · simp only [onAnnouncePeerQuery, hA, hT, hval, hac, hn, if_true, if_false]
    simp only [if_neg hcap']
    exact ⟨ac, rfl, hih⟩

/-- C10 witness: a 3-byte info_hash (not 20 bytes) is stored unchanged. -/
theorem c10_witness :
    ∃ ac, (onAnnouncePeerQuery (newDHT (List.replicate 20 9) [1] 1
        (fun s => s) 0)
      [("a", BVal.bdict [("info_hash", BVal.bstr [7, 8, 9]),
        ("token", BVal.bstr [9, 1])])] ⟨[9], 5⟩).1.announcements
      = (newDHT (List.replicate 20 9) [1] 1 (fun s => s) 0).announcements
        ++ [ac] ∧ ac.infohash = [7, 8, 9] :=
  c10_no_infohash_length_check _ _
    [("info_hash", BVal.bstr [7, 8, 9]), ("token", BVal.bstr [9, 1])]
    [9, 1] [7, 8, 9] _ (by decide) rfl rfl (by decide) rfl

/-- C1: the claim that message processing never panics fails on the code:
a well-typed get_peers query whose `a.id` is the empty string drives
`neighborID` into an out-of-range slice (`target[:15]` on a shorter
slice), modelled as `none` (panic), instead of being silently dropped. -/
theorem c1_short_id_panics :
    onMessage (newDHT (List.replicate 20 9) (List.replicate 20 8) 1
        (fun s => s) 0)
      (some [("t", BVal.bstr (strBytes "aa")), ("y", BVal.bstr (strBytes "q")),
        ("q", BVal.bstr (strBytes "get_peers")),
        ("a", BVal.bdict [("id", BVal.bstr [])])])
      ⟨[1, 2, 3, 4], 1000⟩ 0 = none := rfl

/-- C5: every well-formed inbound get_peers query (string `t`, dict `a`,
20-byte string `a.id`) is answered with exactly one reply to the sender:
`t` echoed verbatim, `r.id = neighborID(a.id, localID)`, `r.nodes` the
empty string, `r.token = genToken(from)`; the state is unchanged. -/
theorem c5_get_peers_reply (g : dht) (dict a : List (String × BVal))
    (tid id : ByteStr) (fromAddr : Addr) (now : Rat)
    (hY : asStr (lookupKey dict "y") = some (strBytes "q"))
    (hT : asStr (lookupKey dict "t") = some tid)
    (hQ : asStr (lookupKey dict "q") = some (strBytes "get_peers"))
    (hA : asDict (lookupKey dict "a") = some a)
    (hID : asStr (lookupKey a "id") = some id)
    (hlen : id.length = 20) (hloc : g.localID.length = 20) :
    ∃ nid, neighborID id g.localID = some nid ∧
      onMessage g (some dict) fromAddr now = some (g,
        [Effect.send (makeReply tid
          [("id", BVal.bstr nid), ("nodes", BVal.bstr []),
           ("token", BVal.bstr (genToken g fromAddr))]) fromAddr]) := by
  have hnid : neighborID id g.localID = some
      (id.take 15 ++ (g.localID.drop 15 ++ List.replicate 5 0).take 5) := by
    rw [neighborID, if_pos (by omega)]
  refine ⟨_, hnid, ?_⟩
  simp only [onMessage, onQuery, onGetPeersQuery, hY, hT, hQ, hA, hID, hnid]
  simp

/-- C5 witness: the spec scenario, `a.id` twenty bytes of 0xAA (= 170). -/
theorem c5_witness :
    ∃ nid, neighborID (List.replicate 20 170)
        (newDHT (List.replicate 20 7) (List.replicate 20 6) 1
          (fun s => s) 0).localID = some nid ∧
      onMessage (newDHT (List.replicate 20 7) (List.replicate 20 6) 1
          (fun s => s) 0)
        (some [("t", BVal.bstr (strBytes "ab")),
          ("y", BVal.bstr (strBytes "q")),
          ("q", BVal.bstr (strBytes "get_peers")),
          ("a", BVal.bdict [("id", BVal.bstr (List.replicate 20 170))])])
        ⟨[10, 0, 0, 1], 6881⟩ 0
      = some (newDHT (List.replicate 20 7) (List.replicate 20 6) 1
          (fun s => s) 0,
        [Effect.send (makeReply (strBytes "ab")
          [("id", BVal.bstr nid), ("nodes", BVal.bstr []),
           ("token", BVal.bstr (genToken
             (newDHT (List.replicate 20 7) (List.replicate 20 6) 1
               (fun s => s) 0) ⟨[10, 0, 0, 1], 6881⟩))])
          ⟨[10, 0, 0, 1], 6881⟩]) :=
  c5_get_peers_reply _ _ _ _ _ _ _ rfl rfl rfl rfl rfl (by decide) (by decide)

/-- C7: every stored announcement carries the source UDP port as its peer
port unless `a.implied_port` is present, typed int and equal to 0 while an
explicit int `a.port` is present, in which case the explicit port is used;
`infohashHex` is the lowercase hex encoding of the `info_hash` bytes and
`infohash` holds those raw bytes unmodified.  (Every stored announcement
comes unchanged out of `summarize`.) -/
theorem c7_announcement_fields :
    (∀ (g : dht) (dict : List (String × BVal)) (fromAddr : Addr),
      (onAnnouncePeerQuery g dict fromAddr).1.announcements
        = g.announcements ∨
      ∃ ac, summarize dict fromAddr = some ac ∧
        (onAnnouncePeerQuery g dict fromAddr).1.announcements
          = g.announcements ++ [ac]) ∧
    (∀ (dict a : List (String × BVal)) (fromAddr : Addr) (ih : ByteStr)
      (ac : announcement),
      asDict (lookupKey dict "a") = some a →
      asStr (lookupKey a "info_hash") = some ih →
      summarize dict fromAddr = some ac →
      ac.infohash = ih ∧ ac.infohashHex = hexEncodeToString ih ∧
      ac.peer.ip = fromAddr.ip ∧
      ac.peer.port = (match asInt (lookupKey a "implied_port"),
          asInt (lookupKey a "port") with
        | some 0, some p => p
        | _, _ => (fromAddr.port : Int))) := by
  constructor
  · intro g dict fromAddr
    by_cases hcap : g.maxAnnouncements ≤ g.announcements.length
    · left; simp [onAnnouncePeerQuery, hcap]
    · cases hA : asDict (lookupKey dict "a") with
      | none => left; simp [onAnnouncePeerQuery, hcap, hA]
      | some a =>
        cases hT : asStr (lookupKey a "token") with
        | none => left; simp [onAnnouncePeerQuery, hcap, hA, hT]
        | some tok =>
          by_cases hv : validateToken g tok fromAddr = true
          · cases hS : summarize dict fromAddr with
            | none => left; simp [onAnnouncePeerQuery, hcap, hA, hT, hv, hS]
            | some ac =>
              right
              refine ⟨ac, rfl, ?_⟩
              by_cases hn : g.announcementNotifier
              · simp [onAnnouncePeerQuery, hcap, hA, hT, hv, hS, hn]
              · simp [onAnnouncePeerQuery, hcap, hA, hT, hv, hS, hn]
          · left; simp [onAnnouncePeerQuery, hcap, hA, hT, hv]
  · intro dict a fromAddr ih ac hA hI hsum
    simp only [summarize, hA, hI, Option.some.injEq] at hsum
    subst hsum
    refine ⟨rfl, rfl, rfl, ?_⟩
    cases hip : asInt (lookupKey a "implied_port") with
    | none => simp [hip]
    | some v =>
      by_cases hv : v = 0
      · subst hv
        cases hp : asInt (lookupKey a "port") with
        | none => simp [hip, hp]
        | some p => simp [hip, hp]
      · cases hp : asInt (lookupKey a "port") with
        | none => simp [hip, hp, hv]
        | some p => simp [hip, hp, hv]

/-- C7 witness: the spec scenario, `info_hash` twenty bytes of 0x11 (= 17),
no `implied_port`: the peer port is the UDP source port and `infohashHex`
is the hex encoding of the infohash bytes. -/
theorem c7_witness :
    ({ raw := [("a", BVal.bdict [("info_hash",
          BVal.bstr (List.replicate 20 17))])]
       fromAddr := ⟨[10, 0, 0, 2], 7000⟩
       peer := ⟨[10, 0, 0, 2], (7000 : Int)⟩
       infohash := List.replicate 20 17
       infohashHex := hexEncodeToString (List.replicate 20 17) } :
        announcement).infohash = List.replicate 20 17 ∧
    ({ raw := [("a", BVal.bdict [("info_hash",
          BVal.bstr (List.replicate 20 17))])]
       fromAddr := ⟨[10, 0, 0, 2], 7000⟩
       peer := ⟨[10, 0, 0, 2], (7000 : Int)⟩
       infohash := List.replicate 20 17
       infohashHex := hexEncodeToString (List.replicate 20 17) } :
        announcement).infohashHex
      = hexEncodeToString (List.replicate 20 17) ∧
    ({ raw := [("a", BVal.bdict [("info_hash",
          BVal.bstr (List.replicate 20 17))])]
       fromAddr := ⟨[10, 0, 0, 2], 7000⟩
       peer := ⟨[10, 0, 0, 2], (7000 : Int)⟩
       infohash := List.replicate 20 17
       infohashHex := hexEncodeToString (List.replicate 20 17) } :
        announcement).peer.ip = (⟨[10, 0, 0, 2], 7000⟩ : Addr).ip ∧
    ({ raw := [("a", BVal.bdict [("info_hash",
          BVal.bstr (List.replicate 20 17))])]
       fromAddr := ⟨[10, 0, 0, 2], 7000⟩
       peer := ⟨[10, 0, 0, 2], (7000 : Int)⟩
       infohash := List.replicate 20 17
       infohashHex := hexEncodeToString (List.replicate 20 17) } :
        announcement).peer.port
      = (match asInt (lookupKey [("info_hash",
            BVal.bstr (List.replicate 20 17))] "implied_port"),
          asInt (lookupKey [("info_hash",
            BVal.bstr (List.replicate 20 17))] "port") with
        | some 0, some p => p
        | _, _ => (((⟨[10, 0, 0, 2], 7000⟩ : Addr).port : Nat) : Int)) :=
  c7_announcement_fields.2
    [("a", BVal.bdict [("info_hash", BVal.bstr (List.replicate 20 17))])]
    [("info_hash", BVal.bstr (List.replicate 20 17))]
    ⟨[10, 0, 0, 2], 7000⟩ (List.replicate 20 17) _ rfl rfl rfl

/-- C8: each node decoded out of a reply's `r.nodes` is independently
tested against `Allow()`; exactly those that acquire a token are forwarded
to the discovery channel, in decode order (the forwarded list is the
allow-filtered sublist of the decoded list); denied nodes are dropped.
With two decoded records and limiter burst 1 on a fresh bucket, exactly
one discovery is enqueued. -/
theorem c8_limiter_filter :
    (∀ (now : Rat) (l : RateLimiter) (ns : List node),
      ((allowLoop now l ns).2).Sublist ns) ∧
    (∀ (g : dht) (dict : List (String × BVal)) (now : Rat)
      (r : List (String × BVal)) (s : ByteStr),
      asDict (lookupKey dict "r") = some r →
      asStr (lookupKey r "nodes") = some s →
      onReply g dict now
        = ({ g with friendsLimiter :=
              (allowLoop now g.friendsLimiter (decodeNodes s)).1 },
           ((allowLoop now g.friendsLimiter (decodeNodes s)).2).map
             Effect.discover)) ∧
    ((onMessage gBurstOne (some replyTwoNodes) ⟨[1, 2, 3, 4], 1000⟩ 0).map
        Prod.snd
      = some [Effect.discover nodeOneTwoThreeFour]) := by
  refine ⟨?_, ?_, ?_⟩
  · intro now l ns
    induction ns generalizing l with
    | nil => simp [allowLoop]
    | cons n rest ih =>
      simp only [allowLoop]
      by_cases hp : (l.allow now).1
      · simp only [hp, if_true]
        exact List.Sublist.cons₂ n (ih _)
      · simp only [hp, if_false]
        exact List.Sublist.cons n (ih _)
  · intro g dict now r s hR hN
    simp only [onReply, hR, hN]
  · have hdec : decodeNodes nodesBytesTwo
        = [nodeOneTwoThreeFour,
           { addr := "5.6.7.8:81", id := List.replicate 20 2 }] := rfl
    have h1 : gBurstOne.friendsLimiter.allow 0
        = (true, { limit := 1, burst := 1, tokens := 0, last := 0 }) := by
      simp [gBurstOne, newDHT, per, RateLimiter.allow]
    have h2 : RateLimiter.allow
          { limit := 1, burst := 1, tokens := 0, last := 0 } 0
        = (false, { limit := 1, burst := 1, tokens := 0, last := 0 }) := by
      simp [RateLimiter.allow]
    have hloop : allowLoop 0 gBurstOne.friendsLimiter (decodeNodes nodesBytesTwo)
        = ({ limit := 1, burst := 1, tokens := 0, last := 0 },
           [nodeOneTwoThreeFour]) := by
      rw [hdec]
      simp [allowLoop, h1, h2]
    have hrep : onReply gBurstOne replyTwoNodes 0
        = ({ gBurstOne with friendsLimiter :=
              (allowLoop 0 gBurstOne.friendsLimiter
                (decodeNodes nodesBytesTwo)).1 },
           ((allowLoop 0 gBurstOne.friendsLimiter
              (decodeNodes nodesBytesTwo)).2).map Effect.discover) := rfl
    have hmsg : onMessage gBurstOne (some replyTwoNodes) ⟨[1, 2, 3, 4], 1000⟩ 0
        = some (onReply gBurstOne replyTwoNodes 0) := rfl
    rw [hmsg, hrep, hloop]
    rfl

/-- C8 witness for the conditional part: the plumbing equation of `onReply`
at the concrete burst-1 scenario. -/
theorem c8_witness :
    onReply gBurstOne replyTwoNodes 0
      = ({ gBurstOne with friendsLimiter :=
            (allowLoop 0 gBurstOne.friendsLimiter
              (decodeNodes nodesBytesTwo)).1 },
         ((allowLoop 0 gBurstOne.friendsLimiter
            (decodeNodes nodesBytesTwo)).2).map Effect.discover) :=
  c8_limiter_filter.2.1 gBurstOne replyTwoNodes 0
    [("nodes", BVal.bstr nodesBytesTwo)] nodesBytesTwo rfl rfl
